import Mathlib

/-!
Verification of the tarot-backend task-queue / worker / backend-pool core.

The Go sources are embedded shallowly: every stateful Go method becomes a
pure Lean function from the old state to the new state (the `sync` mutexes
guard the very mutations that are made explicit here, so the sequential
semantics is the one the locks enforce — and where the lock discipline
itself hangs, the deterministic self-deadlock is modelled as an explicit
non-returning outcome rather than as a result); wall-clock values
(`time.Now`, TTLs, sliding-window counters) are abstracted into explicit
fields or parameters; fallible Go calls return `Except`/`Option`.
-/

namespace Tarot

namespace Dify

/-- Backend instance state, from `Instance` in `pkg/dify/service.go`
(fields `URL`, `APIKey`, `Health`, `LastErr`, `ErrorCount`).  The
`Client` handle is not state; `LastUsed` is a wall-clock timestamp and is
omitted; `load` stands for the value the selection loop reads from the
sliding-window counter `RequestCount.GetRecentCount(5*time.Minute)`. -/
structure Instance where
  url : String
  apiKey : String
  health : Bool
  errorCount : Nat
  lastErr : Option String
  load : Nat
deriving Repr, DecidableEq

/-- `GetHealthyInstance` (service.go lines 155-167): scan the instance list
in order and return the first instance with `Health = true`; if none is
healthy, fail with the error string — there is no fallback on this path. -/
def getHealthyInstance (instances : List Instance) : Except String Instance :=
  match instances.find? (fun i => i.health) with
  | some i => Except.ok i
  | none => Except.error "no healthy dify instance available"

/-- `MarkInstanceUnhealthy` (service.go lines 170-177): unconditionally set
`Health = false` and record the error; `ErrorCount` is not touched. -/
def markInstanceUnhealthy (i : Instance) (err : String) : Instance :=
  { i with health := false, lastErr := some err }

/-- `handleAPISuccess` (service.go lines 323-331): `Health = true`,
`ErrorCount = 0`, `LastErr = nil` (the `LastUsed = now` write is a
wall-clock timestamp and is not modelled). -/
def handleAPISuccess (i : Instance) : Instance :=
  { i with health := true, errorCount := 0, lastErr := none }

/-- `handleAPIError` (service.go lines 334-348): increment `ErrorCount`,
record the error, and set `Health = false` only once the new count
reaches the threshold 3. -/
def handleAPIError (i : Instance) (err : String) : Instance :=
  let i' := { i with errorCount := i.errorCount + 1, lastErr := some err }
  if 3 ≤ i'.errorCount then { i' with health := false } else i'

/-- `resetAllInstances` per instance (service.go lines 407-416):
`Health = true`, `ErrorCount = 0`; `LastErr` is left as is.  Note that
its only caller, `getAvailableInstance`, still holds the read lock the
writer lock at line 408 waits for, so this mutation is never actually
reached (see `getAvailableInstance` below). -/
def resetInstance (i : Instance) : Instance :=
  { i with health := true, errorCount := 0 }

/-- The selection loop of `getAvailableInstance` (service.go lines
364-384): walk the list keeping the healthy instance with the strictly
smallest recent load (`selected == nil || load < minLoad`), so the first
healthy instance wins ties.  The accumulator is `(selected, minLoad)`. -/
def selectLoop : Option (Instance × Nat) → List Instance → Option (Instance × Nat)
  | acc, [] => acc
  | acc, i :: rest =>
      selectLoop
        (if i.health then
          match acc with
          | none => some (i, i.load)
          | some (s, m) => if i.load < m then some (i, i.load) else some (s, m)
        else acc) rest

/-- Outcome of a `getAvailableInstance` call: a selected instance, the
empty-pool error, or — in the all-unhealthy branch — a deterministic
self-deadlock that never returns. -/
inductive SelectionResult where
  | selected (i : Instance) : SelectionResult
  | noBackend (msg : String) : SelectionResult
  | deadlock : SelectionResult
deriving Repr, DecidableEq

/-- `getAvailableInstance` (service.go lines 351-404): pick the least
loaded healthy instance; the `"no dify instances available"` error is
reached only when the instance list itself is empty.  When the list is
non-empty but no instance is healthy, line 399 calls
`resetAllInstances`, which acquires `s.mu.Lock()` (line 408) while this
call frame still holds `s.mu.RLock()` (line 352, released only by the
deferred `RUnlock` on return): a `sync.RWMutex` writer waits for every
reader to release, so the goroutine blocks on itself forever — the
branch never resets anything and never returns, modelled as
`SelectionResult.deadlock`. -/
def getAvailableInstance (instances : List Instance) : SelectionResult :=
  match selectLoop none instances with
  | some (sel, _) => SelectionResult.selected sel
  | none =>
    match instances with
    | [] => SelectionResult.noBackend "no dify instances available"
    | _ :: _ => SelectionResult.deadlock

/-- A pool consisting of one unhealthy instance. -/
def badInstance : Instance :=
  { url := "http://dify-a", apiKey := "k1", health := false,
    errorCount := 5, lastErr := some "boom", load := 0 }

/-- A fresh healthy instance with zero error count. -/
def freshInstance : Instance :=
  { url := "http://dify-a", apiKey := "k1", health := true,
    errorCount := 0, lastErr := none, load := 0 }

theorem selectLoop_eq_none_iff (l : List Instance)
    (acc : Option (Instance × Nat)) :
    selectLoop acc l = none ↔ acc = none ∧ ∀ i ∈ l, i.health = false := by
  induction l generalizing acc with
  | nil => simp [selectLoop]
  | cons i rest ih =>
    simp only [selectLoop, ih, List.mem_cons]
    constructor
    · rintro ⟨hacc, hrest⟩
      by_cases hh : i.health
      · exfalso
        simp [hh] at hacc
        rcases acc with _ | ⟨s, m⟩
        · simp at hacc
        · simp at hacc
          split at hacc <;> simp_all
      · simp [hh] at hacc
        refine ⟨hacc, fun j hj => ?_⟩
        rcases hj with hj | hj
        · subst hj; simpa using hh
        · exact hrest j hj
    · rintro ⟨hacc, hall⟩
      have hi : i.health = false := hall i (Or.inl rfl)
      subst hacc
      simp [hi]
      exact fun j hj => hall j (Or.inr hj)

/-- C1 (code_bug evaluation at the failing input): on the non-empty pool
`[badInstance]` whose only instance is unhealthy, the claim's behaviour
(return an instance, reset all to healthy, error only on an empty set)
happens on neither selection path: `GetHealthyInstance` returns the
no-healthy-instance error even though the pool is non-empty, and
`getAvailableInstance` enters the fail-open branch and self-deadlocks in
`resetAllInstances` (write-lock acquisition while its own read lock is
still held), never returning the reset first instance.  The empty-pool
error and the healthy-pool selection behave as the source writes them. -/
theorem selection_failopen_path_deadlocks :
    [badInstance] ≠ [] ∧
    getHealthyInstance [badInstance] =
      Except.error "no healthy dify instance available" ∧
    getAvailableInstance [badInstance] = SelectionResult.deadlock ∧
    getAvailableInstance [] = SelectionResult.noBackend "no dify instances available" ∧
    getAvailableInstance [freshInstance] = SelectionResult.selected freshInstance := by
  exact ⟨by simp, rfl, rfl, rfl, rfl⟩

/-- C2 (counterexample): `MarkInstanceUnhealthy` flips a fresh instance
(zero accumulated failures) straight to `health = false` while leaving
`errorCount = 0 < 3` — refuting the claim that health becomes false only
after at least 3 consecutive failed calls. -/
theorem markInstanceUnhealthy_skips_threshold :
    (markInstanceUnhealthy freshInstance "connection refused").health = false ∧
    (markInstanceUnhealthy freshInstance "connection refused").errorCount = 0 ∧
    ¬ 3 ≤ (markInstanceUnhealthy freshInstance "connection refused").errorCount :=
  ⟨rfl, rfl, by decide⟩

/-- C2 (amended): the ≥3-consecutive-failures threshold governs only the
`handleAPIError` path: there, health turns false exactly when it already
was false or the incremented error count reaches 3, and a single success
(`handleAPISuccess`) resets `errorCount` to 0, health to true and clears
the last error.  `MarkInstanceUnhealthy` (used by the worker on any
request error) bypasses the threshold: it sets health to false
immediately, without touching `errorCount`. -/
theorem health_threshold_only_on_handleAPIError :
    (∀ (i : Instance) (e : String),
      (handleAPIError i e).health = false ↔
        (i.health = false ∨ 3 ≤ i.errorCount + 1)) ∧
    (∀ (i : Instance) (e : String),
      (handleAPIError i e).errorCount = i.errorCount + 1 ∧
      (handleAPIError i e).lastErr = some e) ∧
    (∀ i : Instance,
      (handleAPISuccess i).health = true ∧
      (handleAPISuccess i).errorCount = 0 ∧
      (handleAPISuccess i).lastErr = none) ∧
    (∀ (i : Instance) (e : String),
      (markInstanceUnhealthy i e).health = false ∧
      (markInstanceUnhealthy i e).errorCount = i.errorCount) := by
  refine ⟨?_, ?_, fun i => ⟨rfl, rfl, rfl⟩, fun i e => ⟨rfl, rfl⟩⟩
  · intro i e
    unfold handleAPIError
    by_cases h : 3 ≤ i.errorCount + 1 <;> simp [h]
  · intro i e
    unfold handleAPIError
    by_cases h : 3 ≤ i.errorCount + 1 <;> simp [h]

/-- `NewInstance` (service.go lines 440-460): returns nil when the URL or
the API key is empty, otherwise a healthy instance with zero error count
(the resty client construction carries no modelled state). -/
def newInstance (url apiKey : String) : Option Instance :=
  if url = "" ∨ apiKey = "" then none
  else some { url := url, apiKey := apiKey, health := true,
              errorCount := 0, lastErr := none, load := 0 }

/-- `Config` (types.go): parallel URL and API-key lists.  `Timeout` and
`MaxRetries` are durations/counters not used by the construction logic
modelled here. -/
structure Config where
  urls : List String
  apiKeys : List String
deriving Repr, DecidableEq

/-- Outcome of the `Config`-based constructor: a nil return, a runtime
panic (Go index-out-of-range, with the offending index), or a service
holding its instance list. -/
inductive NewServiceResult where
  | nilService : NewServiceResult
  | outOfRange (i : Nat) : NewServiceResult
  | service (instances : List Instance) : NewServiceResult
deriving Repr, DecidableEq

/-- The instance-building loop of `NewDifyService` (service.go lines
111-119): for each index `i` below `len(config.URLs)` it reads
`config.APIKeys[i]` — an out-of-range access (Go panic) when the key list
is shorter — and appends `NewInstance(url, apiKey)` when it is non-nil.
`urls` is the remaining suffix of `config.URLs` and `i` its start index. -/
def buildInstances (apiKeys : List String) : List String → Nat → Except Nat (List Instance)
  | [], _ => Except.ok []
  | url :: rest, i =>
    match apiKeys[i]? with
    | none => Except.error i
    | some key =>
      match buildInstances apiKeys rest (i + 1) with
      | Except.error j => Except.error j
      | Except.ok tail =>
          Except.ok (match newInstance url key with
            | none => tail
            | some inst => inst :: tail)

/-- `NewDifyService(config)` (service.go lines 95-127): nil config or an
empty URL/key list gives nil; then one instance per URL index, reading
`APIKeys[i]` (panic when out of range); nil again if no instance
survived `NewInstance`. -/
def newDifyService (config : Option Config) : NewServiceResult :=
  match config with
  | none => NewServiceResult.nilService
  | some c =>
    if c.urls.length = 0 ∨ c.apiKeys.length = 0 then NewServiceResult.nilService
    else
      match buildInstances c.apiKeys c.urls 0 with
      | Except.error i => NewServiceResult.outOfRange i
      | Except.ok instances =>
          if instances.length = 0 then NewServiceResult.nilService
          else NewServiceResult.service instances

/-- `NewDifyService()` (the no-argument variant, `src/unnamed/part_000`
lines 51-92): reads the URL and API-key lists from configuration and
returns nil when their lengths differ; otherwise builds one instance per
pair, all healthy.  (Its `Instance` has no error counter; the shared
`Instance` structure is used with `errorCount = 0`.) -/
def newDifyServiceFromConfig (urls apiKeys : List String) : Option (List Instance) :=
  if urls.length ≠ apiKeys.length then none
  else some ((urls.zip apiKeys).map (fun p =>
    { url := p.1, apiKey := p.2, health := true,
      errorCount := 0, lastErr := none, load := 0 }))

theorem buildInstances_ok_of_le (apiKeys : List String) :
    ∀ (urls : List String) (i : Nat), i + urls.length ≤ apiKeys.length →
    ∃ l, buildInstances apiKeys urls i = Except.ok l ∧ l.length ≤ urls.length ∧
      ((∀ u ∈ urls, u ≠ "") → (∀ k ∈ apiKeys, k ≠ "") → l.length = urls.length) := by
  intro urls
  induction urls with
  | nil => exact fun i _ => ⟨[], rfl, by simp, by simp⟩
  | cons url rest ih =>
    intro i hle
    have hi : i < apiKeys.length := by
      simp only [List.length_cons] at hle
      omega
    have hkey : apiKeys[i]? = some apiKeys[i] := List.getElem?_eq_getElem hi
    obtain ⟨tail, htail, hlen, hfull⟩ := ih (i + 1) (by
      simp only [List.length_cons] at hle
      omega)
    rcases hinst : newInstance url apiKeys[i] with _ | inst
    · refine ⟨tail, ?_, by simp only [List.length_cons]; omega, ?_⟩
      · simp only [buildInstances, hkey, htail, hinst]
      · intro hu hk
        exfalso
        unfold newInstance at hinst
        by_cases hurl : url = ""
        · exact hu url (List.mem_cons_self _ _) hurl
        · by_cases hkey2 : apiKeys[i] = ""
          · exact hk apiKeys[i] (List.getElem_mem hi) hkey2
          · simp [hurl, hkey2] at hinst
    · refine ⟨inst :: tail, ?_, by simpa using hlen, ?_⟩
      · simp only [buildInstances, hkey, htail, hinst]
      · intro hu hk
        simp only [List.length_cons]
        rw [hfull (fun u hm => hu u (List.mem_cons_of_mem _ hm)) hk]

theorem buildInstances_oob (apiKeys : List String) :
    ∀ (urls : List String) (i : Nat), i ≤ apiKeys.length →
    apiKeys.length < i + urls.length →
    buildInstances apiKeys urls i = Except.error apiKeys.length := by
  intro urls
  induction urls with
  | nil =>
    intro i hle hlt
    simp at hlt
    omega
  | cons url rest ih =>
    intro i hle hlt
    unfold buildInstances
    by_cases heq : i = apiKeys.length
    · have hnone : apiKeys[i]? = none := List.getElem?_eq_none (le_of_eq heq.symm)
      rw [hnone, heq]
    · have hi : i < apiKeys.length := Nat.lt_of_le_of_ne hle heq
      rw [List.getElem?_eq_getElem hi]
      rw [ih (i + 1) hi (by
        simp only [List.length_cons] at hlt
        omega)]

/-- C9 (counterexample): a config with 1 URL but 2 API keys — unequal
parallel lists — is accepted by `NewDifyService(config)`: it returns a
service with one instance (the extra key is silently ignored) instead of
failing. -/
theorem newDifyService_accepts_unequal_lists :
    (["http://dify-a"] : List String).length ≠ (["k1", "k2"] : List String).length ∧
    newDifyService (some { urls := ["http://dify-a"], apiKeys := ["k1", "k2"] }) =
      NewServiceResult.service
        [{ url := "http://dify-a", apiKey := "k1", health := true,
           errorCount := 0, lastErr := none, load := 0 }] := by
  exact ⟨by decide, rfl⟩

/-- C9 (amended): only the no-argument constructor (part_000) treats a
length mismatch as a fatal configuration error, returning nil.  The
`Config`-based constructor in service.go never compares the lengths:
(1) with equal-length, non-empty, non-blank lists it builds one instance
per URL/key pair; (2) with more URLs than API keys its build loop reads
`APIKeys[i]` out of range — a runtime panic, not a nil return; (the
counterexample shows extra API keys are silently ignored). -/
theorem newDifyService_length_handling :
    (∀ urls apiKeys : List String, urls.length ≠ apiKeys.length →
      newDifyServiceFromConfig urls apiKeys = none) ∧
    (∀ c : Config, c.urls.length = c.apiKeys.length → c.urls ≠ [] →
      (∀ u ∈ c.urls, u ≠ "") → (∀ k ∈ c.apiKeys, k ≠ "") →
      ∃ l, newDifyService (some c) = NewServiceResult.service l ∧
        l.length = c.urls.length) ∧
    (∀ c : Config, c.apiKeys ≠ [] → c.apiKeys.length < c.urls.length →
      newDifyService (some c) = NewServiceResult.outOfRange c.apiKeys.length) := by
  refine ⟨?_, ?_, ?_⟩
  · intro urls apiKeys h
    simp [newDifyServiceFromConfig, h]
  · intro c hlen hne hu hk
    obtain ⟨l, hbuild, _, hfull⟩ :=
      buildInstances_ok_of_le c.apiKeys c.urls 0 (by omega)
    have hlenl : l.length = c.urls.length := hfull hu hk
    have hz : ¬ (c.urls.length = 0 ∨ c.apiKeys.length = 0) := by
      have : c.urls.length ≠ 0 := fun h0 => hne (List.eq_nil_of_length_eq_zero h0)
      omega
    refine ⟨l, ?_, hlenl⟩
    simp only [newDifyService, if_neg hz, hbuild]
    rw [if_neg (by
      rw [hlenl]
      exact fun h0 => hne (List.eq_nil_of_length_eq_zero h0))]
  · intro c hne hlt
    have hz : ¬ (c.urls.length = 0 ∨ c.apiKeys.length = 0) := by
      have : c.apiKeys.length ≠ 0 := fun h0 => hne (List.eq_nil_of_length_eq_zero h0)
      omega
    have hoob : buildInstances c.apiKeys c.urls 0 = Except.error c.apiKeys.length :=
      buildInstances_oob c.apiKeys c.urls 0 (Nat.zero_le _) (by omega)
    simp only [newDifyService, if_neg hz, hoob]

/-- C9 (witness): the amended theorem applied to concrete configurations:
a mismatched pair rejected by the part_000 constructor, an equal-length
pair built into one instance, and a 2-URL/1-key config that panics at
index 1. -/
theorem newDifyService_length_handling_witness :
    newDifyServiceFromConfig ["http://dify-a"] [] = none ∧
    (∃ l, newDifyService (some { urls := ["http://dify-a"], apiKeys := ["k1"] }) =
      NewServiceResult.service l ∧ l.length = 1) ∧
    newDifyService
        (some { urls := ["http://dify-a", "http://dify-b"], apiKeys := ["k1"] }) =
      NewServiceResult.outOfRange 1 := by
  have h := newDifyService_length_handling
  refine ⟨h.1 ["http://dify-a"] [] (by decide), ?_, ?_⟩
  · have := h.2.1 { urls := ["http://dify-a"], apiKeys := ["k1"] } rfl
      (by simp)
      (by intro u hu; rw [List.mem_singleton] at hu; subst hu; decide)
      (by intro k hk; rw [List.mem_singleton] at hk; subst hk; decide)
    simpa using this
  · exact h.2.2 { urls := ["http://dify-a", "http://dify-b"], apiKeys := ["k1"] }
      (by simp) (by decide)

end Dify

namespace Queue

/-- `TaskStatus` (redis_queue.go lines 16-24).  In Go these are strings;
the Redis-miss sentinel `""` is modelled as `Option.none` at lookup
sites. -/
inductive TaskStatus where
  | pending
  | running
  | completed
  | failed
deriving Repr, DecidableEq

/-- `TarotTask` (redis_queue.go lines 26-36).  The struct's own
`Status`/`Result` fields are never read back after serialization — the
lifecycle state lives in the Redis status/result keys — and the
timestamps are wall-clock values, so only the identifying payload is
kept.  `json.Marshal` of this struct cannot fail and is modelled as the
identity. -/
structure TarotTask where
  id : String
  userId : String
  question : String
  cards : List Int
deriving Repr, DecidableEq

/-- The queue-database state: the Redis list at `prefix:tasks` (`LPush`
conses at the head, `BRPop` pops at the tail, giving FIFO order), the
string keys `prefix:status:<id>` and `prefix:result:<id>` as association
lists (`Set` prepends, `Get` is the first binding), and a ghost `log`
recording every status write in chronological order.  TTLs are wall-clock
expiry and are not modelled. -/
structure Store where
  tasks : List TarotTask
  status : List (String × TaskStatus)
  result : List (String × String)
  log : List (String × TaskStatus)
deriving Repr, DecidableEq

/-- A Redis `SET` on a status key, also recorded in the ghost log. -/
def setStatus (s : Store) (id : String) (st : TaskStatus) : Store :=
  { s with status := (id, st) :: s.status, log := s.log ++ [(id, st)] }

/-- A Redis `SET` on a result key. -/
def setResult (s : Store) (id : String) (r : String) : Store :=
  { s with result := (id, r) :: s.result }

/-- `PushTask` (redis_queue.go lines 64-101): one pipelined batch doing
`LPUSH prefix:tasks taskJSON` and `SET prefix:status:<id> pending TTL`.
The rate-limiter `Wait` only delays the call in real time and the metrics
are observability, so neither is modelled. -/
def pushTask (s : Store) (t : TarotTask) : Store :=
  setStatus { s with tasks := t :: s.tasks } t.id TaskStatus.pending

/-- `UpdateTaskStatus` (redis_queue.go lines 120-134): set the status
key, and set the result key only when `result != ""`. -/
def updateTaskStatus (s : Store) (id : String) (st : TaskStatus) (r : String) : Store :=
  let s1 := setStatus s id st
  if r ≠ "" then setResult s1 id r else s1

/-- `GetTaskStatus` (redis_queue.go lines 171-182): read the status key;
a Redis miss (`goredis.Nil`, surfaced as `""` in Go) is `none`. -/
def getTaskStatus (s : Store) (id : String) : Option TaskStatus :=
  s.status.lookup id

/-- `TaskProgress` (redis_queue.go lines 212-216). -/
structure TaskProgress where
  taskId : String
  status : Option TaskStatus
  result : String
deriving Repr, DecidableEq

/-- `GetTaskProgress` (redis_queue.go lines 185-209): read the status;
only when it is `completed` is the result key read into the response
(a missing result key reads as `""`). -/
def getTaskProgress (s : Store) (id : String) : TaskProgress :=
  let st := getTaskStatus s id
  { taskId := id
    status := st
    result := if st = some TaskStatus.completed then (s.result.lookup id).getD "" else "" }

/-- `DequeueTask` (redis_queue.go lines 224-249): `BRPOP` takes the tail
element of the list; an empty queue blocks (timeout 0), modelled as
`none`. -/
def dequeueTask (s : Store) : Option (TarotTask × Store) :=
  match s.tasks.getLast? with
  | none => none
  | some t => some (t, { s with tasks := s.tasks.dropLast })

/-- Statuses written for a given task id, in order, from the ghost log. -/
def logFor (s : Store) (id : String) : List TaskStatus :=
  (s.log.filter (fun p => p.1 = id)).map Prod.snd

theorem logFor_setStatus (s : Store) (id : String) (st : TaskStatus) :
    logFor (setStatus s id st) id = logFor s id ++ [st] := by
  simp [logFor, setStatus]

theorem logFor_setResult (s : Store) (id : String) (r : String) :
    logFor (setResult s id r) id = logFor s id := rfl

theorem logFor_updateTaskStatus (s : Store) (id : String) (st : TaskStatus) (r : String) :
    logFor (updateTaskStatus s id st r) id = logFor s id ++ [st] := by
  unfold updateTaskStatus
  by_cases h : r ≠ ""
  · rw [if_pos h, logFor_setResult, logFor_setStatus]
  · rw [if_neg h, logFor_setStatus]

theorem getTaskStatus_updateTaskStatus (s : Store) (id : String) (st : TaskStatus) (r : String) :
    getTaskStatus (updateTaskStatus s id st r) id = some st := by
  unfold updateTaskStatus getTaskStatus
  by_cases h : r ≠ ""
  · simp [if_pos h, setResult, setStatus, List.lookup]
  · simp [if_neg h, setStatus, List.lookup]

theorem result_updateTaskStatus_ne (s : Store) (id : String) (st : TaskStatus) (r : String)
    (h : r ≠ "") :
    (updateTaskStatus s id st r).result.lookup id = some r := by
  unfold updateTaskStatus
  simp [if_pos h, setResult, setStatus, List.lookup]

theorem result_updateTaskStatus_empty (s : Store) (id : String) (st : TaskStatus) :
    (updateTaskStatus s id st "").result = s.result := by
  unfold updateTaskStatus
  simp [setStatus]

/-- C6 (confirmed): `PushTask` performs, in one pipelined batch (a single
state update here), both the list push and the pending-status set; hence
a task pushed and then polled before any worker runs reads `pending`, the
serialized task sits at the head of the Redis list — which `BRPOP`
serves last, i.e. at the tail of the FIFO queue — and older tasks are
still dequeued first. -/
theorem pushTask_sets_pending_and_enqueues_fifo :
    ∀ (s : Store) (t : TarotTask),
      getTaskStatus (pushTask s t) t.id = some TaskStatus.pending ∧
      (pushTask s t).tasks = t :: s.tasks ∧
      (pushTask s t).tasks.getLast? =
        (if s.tasks.isEmpty then some t else s.tasks.getLast?) := by
  intro s t
  refine ⟨by simp [pushTask, setStatus, getTaskStatus, List.lookup], rfl, ?_⟩
  show (t :: s.tasks).getLast? = _
  rcases hq : s.tasks with _ | ⟨x, xs⟩
  · simp
  · simp [List.getLast?_cons_cons]

/-- A store holding one task that has reached `failed`, its error message
recorded under the result key by `UpdateTaskStatus`. -/
def failedStore : Store :=
  { tasks := []
    status := [("t1", TaskStatus.failed)]
    result := [("t1", "dify api returned non-200 status: 500")]
    log := [] }

/-- C7 (counterexample): polling task `t1`, which reached `failed` with
its terminal error stored under the result key, returns status `failed`
with an empty result field — `GetTaskProgress` reads the result key only
for `completed`, so the error description is not returned, refuting the
`failed(+error_message)` clause. -/
theorem getTaskProgress_failed_drops_error :
    getTaskStatus failedStore "t1" = some TaskStatus.failed ∧
    failedStore.result.lookup "t1" = some "dify api returned non-200 status: 500" ∧
    (getTaskProgress failedStore "t1").status = some TaskStatus.failed ∧
    (getTaskProgress failedStore "t1").result = "" := by
  exact ⟨rfl, rfl, rfl, rfl⟩

/-- C7 (amended): a poll reports exactly the stored status (`none` =
not_found, else pending/running/completed/failed), but the result field
is populated only when the status is `completed`; for a `failed` task the
stored error message is not included in the poll response. -/
theorem getTaskProgress_result_only_for_completed :
    ∀ (s : Store) (id : String),
      (getTaskProgress s id).status = getTaskStatus s id ∧
      ((getTaskProgress s id).result ≠ "" →
        getTaskStatus s id = some TaskStatus.completed) ∧
      (getTaskStatus s id = some TaskStatus.completed →
        (getTaskProgress s id).result = (s.result.lookup id).getD "") := by
  intro s id
  refine ⟨rfl, ?_, ?_⟩
  · intro hne
    by_contra hnc
    unfold getTaskProgress at hne
    simp only [if_neg hnc] at hne
    exact hne rfl
  · intro hc
    simp [getTaskProgress, hc]

/-- C7 (witness): the amended theorem applied to the concrete store
`failedStore` (and to a completed task). -/
theorem getTaskProgress_result_only_for_completed_witness :
    (getTaskProgress failedStore "t1").status = getTaskStatus failedStore "t1" ∧
    ((getTaskProgress failedStore "t1").result ≠ "" →
      getTaskStatus failedStore "t1" = some TaskStatus.completed) ∧
    (getTaskStatus (updateTaskStatus failedStore "t2" TaskStatus.completed "ok") "t2" =
        some TaskStatus.completed →
      (getTaskProgress (updateTaskStatus failedStore "t2" TaskStatus.completed "ok") "t2" =
        { taskId := "t2", status := some TaskStatus.completed, result := "ok" })) := by
  exact ⟨(getTaskProgress_result_only_for_completed failedStore "t1").1,
    (getTaskProgress_result_only_for_completed failedStore "t1").2.1,
    fun _ => rfl⟩

/-- A Go error value as seen through `errors.Is`: its message plus
whether the chain contains `context.Canceled` / `context.DeadlineExceeded`
(`fmt.Errorf("...: %w", err)` preserves both). -/
structure GoError where
  msg : String
  canceledErr : Bool
  deadlineErr : Bool
deriving Repr, DecidableEq

/-- `fmt.Errorf("<p>%w", e)`: prepend to the message, keep the chain. -/
def wrapErr (p : String) (e : GoError) : GoError :=
  { e with msg := p ++ e.msg }

/-- `isFatalError` (worker.go lines 262-265): `errors.Is(err,
context.Canceled) || errors.Is(err, context.DeadlineExceeded)`. -/
def isFatalError (e : GoError) : Bool :=
  e.canceledErr || e.deadlineErr

/-- The outside world's answer to one `executeTaskWithTimeout` attempt:
either `GetHealthyInstance` fails, or the HTTP call fails (resty error —
a per-attempt timeout surfaces here with `deadlineErr = true`), or the
call returns a response body. -/
inductive CallOutcome where
  | ok (body : String)
  | noInstance (e : GoError)
  | callFailed (e : GoError)
deriving Repr, DecidableEq

/-- The error an attempt reports, wrapped as `executeTaskWithTimeout`
wraps it (worker.go lines 220 and 246); `none` for a successful call. -/
def outcomeErr (o : CallOutcome) : Option GoError :=
  match o with
  | CallOutcome.ok _ => none
  | CallOutcome.noInstance e => some (wrapErr "failed to get healthy instance: " e)
  | CallOutcome.callFailed e => some (wrapErr "failed to process task: " e)

/-- `true` when the attempt fails with a non-fatal error (it will be
retried). -/
def isNonFatalFailure (o : CallOutcome) : Bool :=
  match o with
  | CallOutcome.ok _ => false
  | CallOutcome.noInstance e => !(isFatalError e)
  | CallOutcome.callFailed e => !(isFatalError e)

/-- `executeTaskWithTimeout` (worker.go lines 213-259): get an instance,
post the request, and on success write `completed` with the response body
via `UpdateTaskStatus`.  Store writes are modelled as reliable; the
`MarkInstanceUnhealthy` side effect on the backend pool is covered by the
`Dify` model. -/
def executeTaskWithTimeout (s : Store) (t : TarotTask) (o : CallOutcome) :
    Store × Option GoError :=
  match o with
  | CallOutcome.ok body => (updateTaskStatus s t.id TaskStatus.completed body, none)
  | CallOutcome.noInstance e => (s, some (wrapErr "failed to get healthy instance: " e))
  | CallOutcome.callFailed e => (s, some (wrapErr "failed to process task: " e))

/-- The message produced when the retry budget is exhausted (worker.go
lines 205-209). -/
def exhaustedErr (t : TarotTask) (maxRetries : Nat) (lastErr : Option GoError) : GoError :=
  match lastErr with
  | some e =>
      wrapErr ("task " ++ t.id ++ " failed after " ++
        toString (maxRetries + 1) ++ " attempts: ") e
  | none => { msg := "task failed with unknown error", canceledErr := false, deadlineErr := false }

/-- The retry loop of `processTask` (worker.go lines 169-210):
`for attempt := 0; attempt <= w.retryConfig.MaxRetries; attempt++`.
`idx` is the next attempt index, `fuel` the remaining loop iterations
(`maxRetries + 1` at entry), `lastErr` the last attempt's error.  The
third component of the result counts the attempts actually executed.
The fixed `RetryInterval` sleep and the `ctx.Done` check during that
sleep are wall-clock/concurrency behaviour outside this model;
cancellation is observed through the attempt's own error via
`isFatalError`, exactly as the loop's fatal-error check does. -/
def processLoop (t : TarotTask) (oracle : Nat → CallOutcome) (maxRetries : Nat) :
    Store → Nat → Nat → Option GoError → Store × Option GoError × Nat
  | s, idx, 0, lastErr => (s, some (exhaustedErr t maxRetries lastErr), idx)
  | s, idx, fuel + 1, _ =>
    match executeTaskWithTimeout s t (oracle idx) with
    | (s', none) => (s', none, idx + 1)
    | (s', some e) =>
      if isFatalError e then (s', some (wrapErr "fatal error occurred: " e), idx + 1)
      else processLoop t oracle maxRetries s' (idx + 1) fuel (some e)

/-- `processTask` (worker.go lines 169-210), entered with a full retry
budget.  `NewWorker` (worker.go lines 83-87) pins
`retryConfig.MaxRetries` to 3, so the deployed budget is 4 attempts. -/
def processTask (s : Store) (t : TarotTask) (oracle : Nat → CallOutcome)
    (maxRetries : Nat) : Store × Option GoError × Nat :=
  processLoop t oracle maxRetries s 0 (maxRetries + 1) none

/-- `executeTask` (worker.go lines 141-166): write `running`, run
`processTask`, and on error write `failed` with `err.Error()` as the
result field. -/
def executeTask (s : Store) (t : TarotTask) (oracle : Nat → CallOutcome)
    (maxRetries : Nat) : Store × Option GoError × Nat :=
  let s1 := updateTaskStatus s t.id TaskStatus.running ""
  match processTask s1 t oracle maxRetries with
  | (s2, some e, n) =>
      (updateTaskStatus s2 t.id TaskStatus.failed e.msg,
        some (wrapErr "process task error: " e), n)
  | (s2, none, n) => (s2, none, n)

theorem processLoop_store_of_error (t : TarotTask) (oracle : Nat → CallOutcome)
    (maxRetries : Nat) :
    ∀ (fuel : Nat) (s : Store) (idx : Nat) (lastErr : Option GoError) (e : GoError),
      (processLoop t oracle maxRetries s idx fuel lastErr).2.1 = some e →
      (processLoop t oracle maxRetries s idx fuel lastErr).1 = s := by
  intro fuel
  induction fuel with
  | zero => intro s idx lastErr e _; rfl
  | succ fuel ih =>
    intro s idx lastErr e herr
    unfold processLoop at herr ⊢
    rcases ho : oracle idx with body | e0 | e0 <;>
      simp only [executeTaskWithTimeout, ho] at herr ⊢
    · exact absurd herr (by simp)
    · by_cases hf : isFatalError (wrapErr "failed to get healthy instance: " e0)
      · simp only [hf, if_pos, if_true] at herr ⊢
      · simp only [hf, if_false, Bool.false_eq_true, if_neg, not_false_iff] at herr ⊢
        exact ih s (idx + 1) _ e herr
    · by_cases hf : isFatalError (wrapErr "failed to process task: " e0)
      · simp only [hf, if_pos, if_true] at herr ⊢
      · simp only [hf, if_false, Bool.false_eq_true, if_neg, not_false_iff] at herr ⊢
        exact ih s (idx + 1) _ e herr

theorem processLoop_store_of_ok (t : TarotTask) (oracle : Nat → CallOutcome)
    (maxRetries : Nat) :
    ∀ (fuel : Nat) (s : Store) (idx : Nat) (lastErr : Option GoError),
      (processLoop t oracle maxRetries s idx fuel lastErr).2.1 = none →
      ∃ body, (processLoop t oracle maxRetries s idx fuel lastErr).1 =
        updateTaskStatus s t.id TaskStatus.completed body := by
  intro fuel
  induction fuel with
  | zero => intro s idx lastErr h; exact absurd h (by simp [processLoop])
  | succ fuel ih =>
    intro s idx lastErr h
    unfold processLoop at h ⊢
    rcases ho : oracle idx with body | e0 | e0 <;>
      simp only [executeTaskWithTimeout, ho] at h ⊢
    · exact ⟨body, rfl⟩
    · by_cases hf : isFatalError (wrapErr "failed to get healthy instance: " e0)
      · simp [hf] at h
      · simp only [hf, Bool.false_eq_true, if_neg, not_false_iff] at h ⊢
        exact ih s (idx + 1) _ h
    · by_cases hf : isFatalError (wrapErr "failed to process task: " e0)
      · simp [hf] at h
      · simp only [hf, Bool.false_eq_true, if_neg, not_false_iff] at h ⊢
        exact ih s (idx + 1) _ h

theorem isFatalError_wrapErr (p : String) (e : GoError) :
    isFatalError (wrapErr p e) = isFatalError e := rfl

theorem executeTaskWithTimeout_of_err (s : Store) (t : TarotTask) (o : CallOutcome)
    (e : GoError) (h : outcomeErr o = some e) :
    executeTaskWithTimeout s t o = (s, some e) := by
  cases o with
  | ok body => exact absurd h (by simp [outcomeErr])
  | noInstance e0 =>
    simp only [outcomeErr, Option.some.injEq] at h
    simp [executeTaskWithTimeout, h]
  | callFailed e0 =>
    simp only [outcomeErr, Option.some.injEq] at h
    simp [executeTaskWithTimeout, h]

theorem isNonFatalFailure_iff (o : CallOutcome) :
    isNonFatalFailure o = true ↔
      ∃ e, outcomeErr o = some e ∧ isFatalError e = false := by
  cases o with
  | ok body => simp [isNonFatalFailure, outcomeErr]
  | noInstance e0 =>
    simp [isNonFatalFailure, outcomeErr, isFatalError_wrapErr]
  | callFailed e0 =>
    simp [isNonFatalFailure, outcomeErr, isFatalError_wrapErr]

theorem processLoop_exhausts (t : TarotTask) (oracle : Nat → CallOutcome)
    (maxRetries : Nat) :
    ∀ (fuel : Nat) (s : Store) (idx : Nat) (lastErr : Option GoError),
      (∀ j, idx ≤ j → j < idx + fuel + 1 → isNonFatalFailure (oracle j) = true) →
      ∃ e, outcomeErr (oracle (idx + fuel)) = some e ∧
        processLoop t oracle maxRetries s idx (fuel + 1) lastErr =
          (s, some (exhaustedErr t maxRetries (some e)), idx + fuel + 1) := by
  intro fuel
  induction fuel with
  | zero =>
    intro s idx lastErr hall
    obtain ⟨e, he, hnf⟩ := (isNonFatalFailure_iff (oracle idx)).mp
      (hall idx (le_refl _) (by omega))
    refine ⟨e, by simpa using he, ?_⟩
    unfold processLoop
    rw [executeTaskWithTimeout_of_err s t (oracle idx) e he]
    simp only [hnf, Bool.false_eq_true, if_neg, not_false_iff]
    simp [processLoop]
  | succ fuel ih =>
    intro s idx lastErr hall
    obtain ⟨e0, he0, hnf0⟩ := (isNonFatalFailure_iff (oracle idx)).mp
      (hall idx (le_refl _) (by omega))
    obtain ⟨e, he, hrec⟩ := ih s (idx + 1) (some e0)
      (fun j hj1 hj2 => hall j (by omega) (by omega))
    refine ⟨e, by rw [show idx + (fuel + 1) = idx + 1 + fuel by omega]; exact he, ?_⟩
    show processLoop t oracle maxRetries s idx (fuel + 1 + 1) lastErr = _
    unfold processLoop
    rw [executeTaskWithTimeout_of_err s t (oracle idx) e0 he0]
    simp only [hnf0, Bool.false_eq_true, if_neg, not_false_iff]
    rw [hrec]
    congr 2
    omega

theorem processLoop_fatal (t : TarotTask) (oracle : Nat → CallOutcome)
    (maxRetries : Nat) :
    ∀ (fuel : Nat) (s : Store) (idx : Nat) (lastErr : Option GoError) (i : Nat) (e : GoError),
      idx ≤ i → i < idx + fuel →
      (∀ j, idx ≤ j → j < i → isNonFatalFailure (oracle j) = true) →
      outcomeErr (oracle i) = some e → isFatalError e = true →
      processLoop t oracle maxRetries s idx fuel lastErr =
        (s, some (wrapErr "fatal error occurred: " e), i + 1) := by
  intro fuel
  induction fuel with
  | zero => intro s idx lastErr i e h1 h2 _ _ _; omega
  | succ fuel ih =>
    intro s idx lastErr i e hle hlt hpre herr hfat
    by_cases heq : i = idx
    · subst heq
      unfold processLoop
      rw [executeTaskWithTimeout_of_err s t (oracle i) e herr]
      simp [hfat]
    · have hidx : idx < i := Nat.lt_of_le_of_ne hle (fun h => heq h.symm)
      obtain ⟨e0, he0, hnf0⟩ := (isNonFatalFailure_iff (oracle idx)).mp
        (hpre idx (le_refl _) hidx)
      unfold processLoop
      rw [executeTaskWithTimeout_of_err s t (oracle idx) e0 he0]
      simp only [hnf0, Bool.false_eq_true, if_neg, not_false_iff]
      exact ih s (idx + 1) (some e0) i e hidx (by omega)
        (fun j hj1 hj2 => hpre j (by omega) hj2) herr hfat

theorem processLoop_attempts_le (t : TarotTask) (oracle : Nat → CallOutcome)
    (maxRetries : Nat) :
    ∀ (fuel : Nat) (s : Store) (idx : Nat) (lastErr : Option GoError),
      (processLoop t oracle maxRetries s idx fuel lastErr).2.2 ≤ idx + fuel := by
  intro fuel
  induction fuel with
  | zero => intro s idx lastErr; simp [processLoop]
  | succ fuel ih =>
    intro s idx lastErr
    unfold processLoop
    rcases ho : oracle idx with body | e0 | e0 <;>
      simp only [executeTaskWithTimeout, ho]
    · omega
    · by_cases hf : isFatalError (wrapErr "failed to get healthy instance: " e0)
      · simp only [hf, if_pos, if_true]
        omega
      · simp only [hf, Bool.false_eq_true, if_neg, not_false_iff]
        have := ih s (idx + 1) (some (wrapErr "failed to get healthy instance: " e0))
        omega
    · by_cases hf : isFatalError (wrapErr "failed to process task: " e0)
      · simp only [hf, if_pos, if_true]
        omega
      · simp only [hf, Bool.false_eq_true, if_neg, not_false_iff]
        have := ih s (idx + 1) (some (wrapErr "failed to process task: " e0))
        omega

theorem task_lifecycle_trace
    (s : Store) (t : TarotTask) (oracle : Nat → CallOutcome) (maxRetries : Nat) :
    ∃ term, (term = TaskStatus.completed ∨ term = TaskStatus.failed) ∧
      logFor (executeTask (pushTask s t) t oracle maxRetries).1 t.id =
        logFor s t.id ++ [TaskStatus.pending, TaskStatus.running, term] ∧
      getTaskStatus (executeTask (pushTask s t) t oracle maxRetries).1 t.id =
        some term := by
  have hpush : logFor (pushTask s t) t.id = logFor s t.id ++ [TaskStatus.pending] := by
    unfold pushTask
    rw [logFor_setStatus]
    rfl
  have hrun : logFor (updateTaskStatus (pushTask s t) t.id TaskStatus.running "") t.id =
      logFor s t.id ++ [TaskStatus.pending, TaskStatus.running] := by
    rw [logFor_updateTaskStatus, hpush]
    simp
  unfold executeTask
  rcases hp : processTask (updateTaskStatus (pushTask s t) t.id TaskStatus.running "")
      t oracle maxRetries with ⟨s2, err, n⟩
  cases err with
  | none =>
    obtain ⟨body, hbody⟩ := processLoop_store_of_ok t oracle maxRetries (maxRetries + 1)
      (updateTaskStatus (pushTask s t) t.id TaskStatus.running "") 0 none
      (by rw [show processLoop t oracle maxRetries
          (updateTaskStatus (pushTask s t) t.id TaskStatus.running "") 0
          (maxRetries + 1) none = processTask
            (updateTaskStatus (pushTask s t) t.id TaskStatus.running "")
            t oracle maxRetries from rfl, hp])
    rw [show processLoop t oracle maxRetries
        (updateTaskStatus (pushTask s t) t.id TaskStatus.running "") 0
        (maxRetries + 1) none = processTask
          (updateTaskStatus (pushTask s t) t.id TaskStatus.running "")
          t oracle maxRetries from rfl, hp] at hbody
    refine ⟨TaskStatus.completed, Or.inl rfl, ?_, ?_⟩
    · simp only [hp, hbody]
      rw [logFor_updateTaskStatus, hrun]
      simp
    · simp only [hp, hbody]
      exact getTaskStatus_updateTaskStatus _ _ _ _
  | some e =>
    have hstore : s2 = updateTaskStatus (pushTask s t) t.id TaskStatus.running "" := by
      have := processLoop_store_of_error t oracle maxRetries (maxRetries + 1)
        (updateTaskStatus (pushTask s t) t.id TaskStatus.running "") 0 none e
        (by rw [show processLoop t oracle maxRetries
            (updateTaskStatus (pushTask s t) t.id TaskStatus.running "") 0
            (maxRetries + 1) none = processTask
              (updateTaskStatus (pushTask s t) t.id TaskStatus.running "")
              t oracle maxRetries from rfl, hp])
      rw [show processLoop t oracle maxRetries
          (updateTaskStatus (pushTask s t) t.id TaskStatus.running "") 0
          (maxRetries + 1) none = processTask
            (updateTaskStatus (pushTask s t) t.id TaskStatus.running "")
            t oracle maxRetries from rfl, hp] at this
      exact this
    refine ⟨TaskStatus.failed, Or.inr rfl, ?_, ?_⟩
    · simp only [hp]
      rw [logFor_updateTaskStatus, hstore, hrun]
      simp
    · simp only [hp]
      exact getTaskStatus_updateTaskStatus _ _ _ _

/-- C8 (confirmed): a task's lifecycle writes exactly the status sequence
`pending, running, t` with `t` terminal (`completed` or `failed`): the
status only moves forward, the task never re-enters `pending` after
`running`, and after the terminal write the worker writes no further
status for it (the final stored status is that terminal value; the
`failed` write also carries the result payload). -/
theorem task_status_forward_only :
    ∀ (s : Store) (t : TarotTask) (oracle : Nat → CallOutcome) (maxRetries : Nat),
      ∃ term, (term = TaskStatus.completed ∨ term = TaskStatus.failed) ∧
        logFor (executeTask (pushTask s t) t oracle maxRetries).1 t.id =
          logFor s t.id ++ [TaskStatus.pending, TaskStatus.running, term] ∧
        getTaskStatus (executeTask (pushTask s t) t oracle maxRetries).1 t.id =
          some term :=
  fun s t oracle maxRetries => task_lifecycle_trace s t oracle maxRetries

/-- The empty queue database. -/
def emptyStore : Store := { tasks := [], status := [], result := [], log := [] }

/-- A sample reading task. -/
def sampleTask : TarotTask :=
  { id := "t1", userId := "u1", question := "will I find love?", cards := [1, 15, 21] }

/-- An environment in which every backend attempt fails with the same
non-fatal transport error. -/
def alwaysFailOracle : Nat → CallOutcome :=
  fun _ => CallOutcome.callFailed { msg := "boom", canceledErr := false, deadlineErr := false }

/-- The store after the worker exhausts its retries on `sampleTask`
under the deployed `MaxRetries = 3`. -/
def failedRun : Store :=
  (executeTask (pushTask emptyStore sampleTask) sampleTask alwaysFailOracle 3).1

/-- C4 (counterexample): after retry exhaustion the task `t1` has status
`failed` and a non-empty stored result (the terminal error message) —
refuting "result is non-empty iff status = completed". -/
theorem failed_task_stores_nonempty_result :
    getTaskStatus failedRun "t1" = some TaskStatus.failed ∧
    failedRun.result.lookup "t1" =
      some "task t1 failed after 4 attempts: failed to process task: boom" ∧
    failedRun.result.lookup "t1" ≠ none ∧
    getTaskStatus failedRun "t1" ≠ some TaskStatus.completed := by
  exact ⟨rfl, rfl, by decide, by decide⟩

/-- C4 (amended): a task's stored result is empty while it is `pending`
or `running`, and a non-empty result implies a terminal status — but
that terminal status may be `failed` as well as `completed` (a failed
task stores the terminal error message as its result), so non-empty does
not imply `completed`. -/
theorem result_empty_until_terminal :
    ∀ (s : Store) (t : TarotTask) (oracle : Nat → CallOutcome) (maxRetries : Nat),
      s.result.lookup t.id = none →
      ((pushTask s t).result.lookup t.id = none ∧
        getTaskStatus (pushTask s t) t.id = some TaskStatus.pending) ∧
      (updateTaskStatus (pushTask s t) t.id TaskStatus.running "").result.lookup t.id
        = none ∧
      (getTaskStatus (executeTask (pushTask s t) t oracle maxRetries).1 t.id =
          some TaskStatus.completed ∨
        getTaskStatus (executeTask (pushTask s t) t oracle maxRetries).1 t.id =
          some TaskStatus.failed) ∧
      ((executeTask (pushTask s t) t oracle maxRetries).1.result.lookup t.id ≠ none →
        getTaskStatus (executeTask (pushTask s t) t oracle maxRetries).1 t.id =
          some TaskStatus.completed ∨
        getTaskStatus (executeTask (pushTask s t) t oracle maxRetries).1 t.id =
          some TaskStatus.failed) := by
  intro s t oracle maxRetries hfresh
  have hpushres : (pushTask s t).result.lookup t.id = none := hfresh
  have hrunres :
      (updateTaskStatus (pushTask s t) t.id TaskStatus.running "").result.lookup t.id
        = none := by
    rw [result_updateTaskStatus_empty]
    exact hpushres
  have hterm :
      getTaskStatus (executeTask (pushTask s t) t oracle maxRetries).1 t.id =
        some TaskStatus.completed ∨
      getTaskStatus (executeTask (pushTask s t) t oracle maxRetries).1 t.id =
        some TaskStatus.failed := by
    obtain ⟨term, hcases, _, hstatus⟩ := task_lifecycle_trace s t oracle maxRetries
    rcases hcases with h | h <;> rw [hstatus, h]
    · exact Or.inl rfl
    · exact Or.inr rfl
  refine ⟨⟨hpushres, ?_⟩, hrunres, hterm, fun _ => hterm⟩
  unfold pushTask getTaskStatus setStatus
  simp [List.lookup]

/-- C4 (witness): the amended theorem applied to `sampleTask` pushed into
the empty store with the always-failing environment. -/
theorem result_empty_until_terminal_witness :
    ((pushTask emptyStore sampleTask).result.lookup "t1" = none ∧
      getTaskStatus (pushTask emptyStore sampleTask) "t1" = some TaskStatus.pending) ∧
    (getTaskStatus failedRun "t1" = some TaskStatus.completed ∨
      getTaskStatus failedRun "t1" = some TaskStatus.failed) := by
  have h := result_empty_until_terminal emptyStore sampleTask alwaysFailOracle 3 rfl
  exact ⟨h.1, h.2.2.1⟩

theorem append_left_ne_empty (p r : String) (hp : 0 < p.length) : p ++ r ≠ "" := by
  intro h
  have hl := congrArg String.length h
  rw [String.length_append] at hl
  have hz : ("" : String).length = 0 := rfl
  rw [hz] at hl
  omega

theorem exhausted_prefix_len (t : TarotTask) (maxRetries : Nat) :
    0 < ("task " ++ t.id ++ " failed after " ++ toString (maxRetries + 1) ++
      " attempts: ").length := by
  rw [String.length_append, String.length_append, String.length_append,
    String.length_append]
  have h5 : 0 < ("task " : String).length := by decide
  omega

/-- An environment in which the first backend attempt already fails with
a context-cancellation error. -/
def cancelErr : GoError :=
  { msg := "context canceled", canceledErr := true, deadlineErr := false }

/-- An environment whose every attempt fails with `cancelErr`. -/
def cancelOracle : Nat → CallOutcome :=
  fun _ => CallOutcome.callFailed cancelErr

/-- C3 (counterexample): under the deployed retry configuration
(`NewWorker` pins `retryConfig.MaxRetries = 3`), a task whose every
attempt fails non-fatally is attempted 4 times, not "up to 3 times": the
loop `for attempt := 0; attempt <= MaxRetries` runs `MaxRetries + 1`
attempts. -/
theorem worker_attempts_four_not_three :
    (executeTask emptyStore sampleTask alwaysFailOracle 3).2.2 = 4 ∧
    ¬ (executeTask emptyStore sampleTask alwaysFailOracle 3).2.2 ≤ 3 := by
  exact ⟨rfl, by decide⟩

/-- C3 (amended): the worker attempts execution up to `MaxRetries + 1`
times (one initial attempt plus up to `MaxRetries` retries; the deployed
`retryConfig` pins `MaxRetries = 3`, so 4 attempts, with a fixed 5s
inter-attempt delay).  A cancellation/deadline error from the call
context is fatal: the first fatally-failing attempt ends the loop with no
further attempts and the task is marked `failed`; every other error is
retried, and after exhausting the budget the status is `failed` with the
last error's message embedded in the stored result. -/
theorem worker_retry_semantics :
    ∀ (s : Store) (t : TarotTask) (oracle : Nat → CallOutcome) (maxRetries : Nat),
      (executeTask s t oracle maxRetries).2.2 ≤ maxRetries + 1 ∧
      (∀ (i : Nat) (e : GoError), i ≤ maxRetries →
        (∀ j, j < i → isNonFatalFailure (oracle j) = true) →
        outcomeErr (oracle i) = some e → isFatalError e = true →
        (executeTask s t oracle maxRetries).2.2 = i + 1 ∧
        getTaskStatus (executeTask s t oracle maxRetries).1 t.id =
          some TaskStatus.failed ∧
        (executeTask s t oracle maxRetries).1.result.lookup t.id =
          some ("fatal error occurred: " ++ e.msg)) ∧
      ((∀ j, j ≤ maxRetries → isNonFatalFailure (oracle j) = true) →
        ∃ e, outcomeErr (oracle maxRetries) = some e ∧
          (executeTask s t oracle maxRetries).2.2 = maxRetries + 1 ∧
          getTaskStatus (executeTask s t oracle maxRetries).1 t.id =
            some TaskStatus.failed ∧
          (executeTask s t oracle maxRetries).1.result.lookup t.id =
            some ("task " ++ t.id ++ " failed after " ++ toString (maxRetries + 1) ++
              " attempts: " ++ e.msg)) := by
  intro s t oracle maxRetries
  have hATT : (executeTask s t oracle maxRetries).2.2 =
      (processLoop t oracle maxRetries
        (updateTaskStatus s t.id TaskStatus.running "") 0 (maxRetries + 1) none).2.2 := by
    unfold executeTask processTask
    rcases hp : processLoop t oracle maxRetries
        (updateTaskStatus s t.id TaskStatus.running "") 0 (maxRetries + 1) none
      with ⟨s2, err, n⟩
    cases err <;> simp [hp]
  refine ⟨?_, ?_, ?_⟩
  · rw [hATT]
    have hb := processLoop_attempts_le t oracle maxRetries (maxRetries + 1)
      (updateTaskStatus s t.id TaskStatus.running "") 0 none
    omega
  · intro i e hile hpre herr hfat
    have hloop := processLoop_fatal t oracle maxRetries (maxRetries + 1)
      (updateTaskStatus s t.id TaskStatus.running "") 0 none i e
      (Nat.zero_le _) (by omega) (fun j _ hj2 => hpre j hj2) herr hfat
    have hmsg : (wrapErr "fatal error occurred: " e).msg =
        "fatal error occurred: " ++ e.msg := rfl
    have hne : (wrapErr "fatal error occurred: " e).msg ≠ "" := by
      rw [hmsg]
      exact append_left_ne_empty _ _ (by decide)
    refine ⟨?_, ?_, ?_⟩
    · simp only [executeTask, processTask, hloop]
    · simp only [executeTask, processTask, hloop]
      exact getTaskStatus_updateTaskStatus _ _ _ _
    · simp only [executeTask, processTask, hloop]
      rw [result_updateTaskStatus_ne _ _ _ _ hne, hmsg]
  · intro hall
    obtain ⟨e, he, hloop⟩ := processLoop_exhausts t oracle maxRetries maxRetries
      (updateTaskStatus s t.id TaskStatus.running "") 0 none
      (fun j _ hj2 => hall j (by omega))
    rw [Nat.zero_add] at he hloop
    have hmsg : (exhaustedErr t maxRetries (some e)).msg =
        "task " ++ t.id ++ " failed after " ++ toString (maxRetries + 1) ++
          " attempts: " ++ e.msg := rfl
    have hne : (exhaustedErr t maxRetries (some e)).msg ≠ "" := by
      rw [hmsg]
      exact append_left_ne_empty _ _ (exhausted_prefix_len t maxRetries)
    refine ⟨e, he, ?_, ?_, ?_⟩
    · simp only [executeTask, processTask, hloop]
    · simp only [executeTask, processTask, hloop]
      exact getTaskStatus_updateTaskStatus _ _ _ _
    · simp only [executeTask, processTask, hloop]
      rw [result_updateTaskStatus_ne _ _ _ _ hne, hmsg]

/-- C3 (witness): the amended theorem applied to `sampleTask` with the
deployed `MaxRetries = 3`: the attempt bound under the always-failing
environment, immediate abort under a first-attempt cancellation, and
exhaustion after 4 non-fatal failures. -/
theorem worker_retry_semantics_witness :
    (executeTask emptyStore sampleTask alwaysFailOracle 3).2.2 ≤ 4 ∧
    ((executeTask emptyStore sampleTask cancelOracle 3).2.2 = 1 ∧
      getTaskStatus (executeTask emptyStore sampleTask cancelOracle 3).1
        sampleTask.id = some TaskStatus.failed ∧
      (executeTask emptyStore sampleTask cancelOracle 3).1.result.lookup
        sampleTask.id =
        some ("fatal error occurred: " ++
          (wrapErr "failed to process task: " cancelErr).msg)) ∧
    (∃ e, outcomeErr (alwaysFailOracle 3) = some e ∧
      (executeTask emptyStore sampleTask alwaysFailOracle 3).2.2 = 4 ∧
      getTaskStatus (executeTask emptyStore sampleTask alwaysFailOracle 3).1
        sampleTask.id = some TaskStatus.failed ∧
      (executeTask emptyStore sampleTask alwaysFailOracle 3).1.result.lookup
        sampleTask.id =
        some ("task " ++ sampleTask.id ++ " failed after " ++ toString 4 ++
          " attempts: " ++ e.msg)) := by
  have h1 := worker_retry_semantics emptyStore sampleTask alwaysFailOracle 3
  have h2 := worker_retry_semantics emptyStore sampleTask cancelOracle 3
  exact ⟨h1.1,
    h2.2.1 0 (wrapErr "failed to process task: " cancelErr) (by omega)
      (fun j hj => absurd hj (Nat.not_lt_zero j)) rfl rfl,
    h1.2.2 (fun j _ => rfl)⟩

end Queue

namespace Dify

/-- `formatCards` (service.go lines 280-289): any card list whose length
is not exactly 3 yields `""`; a 3-card list is formatted as the
comma-joined decimal card numbers (`fmt.Sprintf("%d", card)` =
`toString`). -/
def formatCards (cards : List Int) : String :=
  if cards.length ≠ 3 then ""
  else String.intercalate "," (cards.map (fun card => toString card))

/-- The request body built by `callDifyAPI` (service.go lines 226-233):
`inputs.question`, `inputs.cards = formatCards(cards)`, and the constant
`response_mode` / `user` fields. -/
structure DifyRequest where
  inputsQuestion : String
  inputsCards : String
  responseMode : String
  user : String
deriving Repr, DecidableEq

/-- The `DifyRequest` value `callDifyAPI` sends for a question and card
list. -/
def buildDifyRequest (question : String) (cards : List Int) : DifyRequest :=
  { inputsQuestion := question
    inputsCards := formatCards cards
    responseMode := "blocking"
    user := "tarot-user" }

/-- The `cards` rule of `ValidateTarotReading` (requests.go lines 72-97):
`"required", "min:1", "max:3"` on the `[]int` field — the request is
accepted when the card list has between 1 and 3 elements. -/
def cardsRuleAccepts (cards : List Int) : Bool :=
  decide (1 ≤ cards.length) && decide (cards.length ≤ 3)

/-- C10 (confirmed): for every card list whose length is not exactly 3,
`formatCards` returns `""` and the backend request built by
`callDifyAPI` carries an empty `cards` input — and request validation
does accept 1- and 2-card lists, so such requests reach the backend with
their card identifiers dropped. -/
theorem short_card_lists_reach_backend_empty :
    (∀ (question : String) (cards : List Int), cards.length ≠ 3 →
      formatCards cards = "" ∧
      (buildDifyRequest question cards).inputsCards = "") ∧
    cardsRuleAccepts [7] = true ∧ cardsRuleAccepts [7, 21] = true := by
  refine ⟨?_, by decide, by decide⟩
  intro question cards hlen
  have h : formatCards cards = "" := by
    unfold formatCards
    rw [if_pos hlen]
  exact ⟨h, h⟩

/-- C10 (witness): the theorem applied to the 2-card list `[7, 21]`
(accepted by validation) and a sample question. -/
theorem short_card_lists_reach_backend_empty_witness :
    formatCards [7, 21] = "" ∧
    (buildDifyRequest "will I find love?" [7, 21]).inputsCards = "" :=
  short_card_lists_reach_backend_empty.1 "will I find love?" [7, 21] (by decide)

end Dify

namespace Limiter

/-- `strings.ReplaceAll(limit, "-", "/")` (limiter.go line 26): both
patterns are single characters, so it is a character map. -/
def replaceDashSlash (l : List Char) : List Char :=
  l.map (fun c => if c = '-' then '/' else c)

/-- `strings.Split(s, "-")` for the single-character separator: the list
of chunks between dashes (always non-empty; a dash-free string yields the
one-element list). -/
def splitOnDash : List Char → List (List Char)
  | [] => [[]]
  | c :: rest =>
    let r := splitOnDash rest
    if c = '-' then [] :: r
    else
      match r with
      | [] => [[c]]
      | h :: t => (c :: h) :: t

/-- The period table of the dependency's rate parser: seconds per unit
letter (upper-cased), `none` for an unrecognized unit. -/
def periodSecondsOf (unit : List Char) : Option Nat :=
  if unit = ['S'] then some 1
  else if unit = ['M'] then some 60
  else if unit = ['H'] then some 3600
  else if unit = ['D'] then some 86400
  else none

/-- `strconv` digit parsing: `some n` when the character list is a
non-empty string of decimal digits (the non-negative counts the claim
quantifies over; signs/decimals only make both parsers fail earlier or
alike, and the range check of `ParseInt` cannot fail on the inputs
reaching it here). -/
def parseDigits (l : List Char) : Option Nat :=
  if l = [] then none
  else l.foldl (fun acc c =>
    match acc with
    | none => none
    | some n => if c.isDigit then some (n * 10 + (c.toNat - 48)) else none) (some 0)

/-- Modelled from the dependency source `github.com/ulule/limiter/v3`
(`rate.go`, `NewRateFromFormatted`): split the formatted string on `"-"`,
require exactly two chunks, look the upper-cased period letter up in the
`periods` table, and parse the limit; the result value itself is not
used by `ParseLimit`, so only success/failure is returned. -/
def newRateFromFormatted (formatted : List Char) : Option (Nat × Nat) :=
  let values := splitOnDash formatted
  match values with
  | [limit, period] =>
    match periodSecondsOf (period.map Char.toUpper) with
    | none => none
    | some p =>
      match parseDigits limit with
      | none => none
      | some n => some (n, p)
  | _ => none

/-- `ParseLimit` (limiter.go lines 24-61): rewrite every `"-"` to `"/"`,
validate the rewritten string with the dependency's
`NewRateFromFormatted`, then re-split the original on `"-"`, parse the
count, and divide by the seconds of the unit.  The rate is returned as a
rational (`float64` divisions of these magnitudes are exact enough that
the claim's arithmetic is unaffected; the branch is in any case proven
unreachable below). -/
def parseLimit (limit : String) : Except String ℚ :=
  match newRateFromFormatted (replaceDashSlash limit.data) with
  | none => Except.error "invalid limit format"
  | some _ =>
    match splitOnDash limit.data with
    | [countStr, unitStr] =>
      match parseDigits countStr with
      | none => Except.error "invalid rate value"
      | some value =>
        let unitU := unitStr.map Char.toUpper
        if unitU = ['S'] then Except.ok (value : ℚ)
        else if unitU = ['M'] then Except.ok ((value : ℚ) / 60)
        else if unitU = ['H'] then Except.ok ((value : ℚ) / 3600)
        else if unitU = ['D'] then Except.ok ((value : ℚ) / 86400)
        else Except.error "invalid time unit"
    | _ => Except.error "invalid limit format"

theorem replaceDashSlash_no_dash (l : List Char) :
    ∀ c ∈ replaceDashSlash l, c ≠ '-' := by
  intro c hc
  rcases List.mem_map.mp hc with ⟨c0, _, hmap⟩
  by_cases h0 : c0 = '-'
  · rw [← hmap]
    simp [h0]
  · rw [← hmap]
    simp [h0]

theorem splitOnDash_of_no_dash (l : List Char) (h : ∀ c ∈ l, c ≠ '-') :
    splitOnDash l = [l] := by
  induction l with
  | nil => rfl
  | cons c rest ih =>
    have hc : c ≠ '-' := h c (List.mem_cons_self _ _)
    have hr : splitOnDash rest = [rest] :=
      ih (fun c0 hc0 => h c0 (List.mem_cons_of_mem _ hc0))
    unfold splitOnDash
    simp only [hr, if_neg hc]

/-- C5 (code_bug): `ParseLimit` fails with the invalid-format error on
every input — including every valid spec such as `"5-S"`, contradicting
its own doc comment (`支持的格式: "5-S"、"10-M"...`) and the spec: the
dash-to-slash rewrite removes every dash, and the dependency's
`NewRateFromFormatted` then splits on `"-"` and finds one chunk instead
of the required two.  The per-second conversion code below that check is
unreachable. -/
theorem parseLimit_always_invalid_format :
    parseLimit "5-S" = Except.error "invalid limit format" ∧
    ∀ limit : String, parseLimit limit = Except.error "invalid limit format" := by
  have hall : ∀ limit : String,
      parseLimit limit = Except.error "invalid limit format" := by
    intro limit
    unfold parseLimit
    have hsplit : splitOnDash (replaceDashSlash limit.data) =
        [replaceDashSlash limit.data] :=
      splitOnDash_of_no_dash _ (replaceDashSlash_no_dash limit.data)
    unfold newRateFromFormatted
    simp only [hsplit]
  exact ⟨hall "5-S", hall⟩

end Limiter

end Tarot
